import Mathlib

/-!
Verification of the change-aggregation engine of `deltawatch.py`.

The Python source is shallowly embedded below.  Filesystem interaction
(`os.path.isdir`, `os.path.exists`, `os.path.getsize`, `os.scandir`) is
abstracted into an `FS` record of pure functions describing what the
filesystem answers during one `_record_change` call; a `none` result of
`getsize`/`listdir` models the call raising `OSError`/`PermissionError`/
`FileNotFoundError`.  Python `dict`s (which preserve insertion order and
update entries in place) are embedded as association lists;
`collections.deque(maxlen=m)` is embedded by `dequeAppend`.  Timestamps
(`datetime.now()`) are abstracted to `Nat` seconds supplied per call.
-/

namespace DeltaWatch

/-- Association-list lookup: embeds Python `dict.get` / `d[k]`. -/
def alistLookup {α : Type} : List (String × α) → String → Option α
  | [], _ => none
  | (k2, v) :: t, k => if k2 = k then some v else alistLookup t k

/-- Association-list insert-or-update.  Like a Python `dict` assignment it
keeps the position of an existing key and appends a fresh key at the end. -/
def alistInsert {α : Type} : List (String × α) → String → α → List (String × α)
  | [], k, v => [(k, v)]
  | (k2, v2) :: t, k, v => if k2 = k then (k, v) :: t else (k2, v2) :: alistInsert t k v

/-- Association-list removal: embeds Python `del d[k]` guarded by `k in d`
(absent keys are a no-op, exactly as in `_record_change`). -/
def alistErase {α : Type} : List (String × α) → String → List (String × α)
  | [], _ => []
  | (k2, v2) :: t, k => if k2 = k then t else (k2, v2) :: alistErase t k

/-- Membership test: embeds Python `k in d`. -/
def alistContains {α : Type} (l : List (String × α)) (k : String) : Bool :=
  (alistLookup l k).isSome

/-- Glob matching over characters: embeds the `fnmatch.fnmatch` patterns the
program uses (`*` matches any run, `?` any single character, anything else is
literal; character classes are not modelled, no claim depends on them). -/
def globMatch : List Char → List Char → Bool
  | [], s => s.isEmpty
  | p :: ps, s =>
    if p = '*' then s.tails.any (fun suffix => globMatch ps suffix)
    else
      match s with
      | [] => false
      | c :: cs => (p = '?' || p = c) && globMatch ps cs

/-- ASCII lowercasing of a string: embeds `str.lower()` (the program only
feeds it paths; non-ASCII case folding is not modelled). -/
def lowerStr (s : String) : String :=
  String.mk (s.data.map Char.toLower)

/-- Embeds `fnmatch.fnmatch(name, pattern)` as used by `_is_excluded`. -/
def fnmatch (name pattern : String) : Bool :=
  globMatch pattern.data name.data

/-- Embeds `posixpath.dirname`: the slice of the path up to the last `/`,
with trailing slashes stripped unless the head is empty or all slashes. -/
def posixDirname (p : String) : String :=
  let cs := p.data
  let i := cs.length - (cs.reverse.takeWhile (fun c => c ≠ '/')).length
  let head := cs.take i
  if head ≠ [] ∧ head.any (fun c => c ≠ '/') then
    String.mk ((head.reverse.dropWhile (fun c => c = '/')).reverse)
  else
    String.mk head

/-- One `os.scandir` entry as seen by `get_dir_size`: `isFileRes = none`
models `entry.is_file(follow_symlinks=False)` raising, `statRes = none`
models `entry.stat(follow_symlinks=False)` raising. -/
structure DirEntry where
  isFileRes : Option Bool
  statRes : Option Nat
  deriving DecidableEq

/-- The filesystem answers available to one recording step. -/
structure FS where
  isDir : String → Bool
  pathExists : String → Bool
  getsize : String → Option Nat
  listdir : String → Option (List DirEntry)

/-- Embeds `get_dir_size`: sum of `st_size` over immediate entries for which
`is_file(follow_symlinks=False)` returns true and `stat` succeeds; an entry
whose `is_file` or `stat` raises is skipped (`continue`); if `os.scandir`
itself raises the function returns the running total, i.e. 0. -/
def get_dir_size (fs : FS) (path : String) : Nat :=
  match fs.listdir path with
  | none => 0
  | some entries =>
    entries.foldl
      (fun total e =>
        match e.isFileRes with
        | none => total
        | some false => total
        | some true =>
          match e.statRes with
          | none => total
          | some n => total + n)
      0

/-- Embeds `collections.deque(maxlen=m).append`: the new element goes to the
right and elements are discarded from the left until the length is at most
`maxlen` (for `maxlen = 0` the deque stays empty, as in CPython). -/
def dequeAppend {α : Type} (maxlen : Nat) (q : List α) (x : α) : List α :=
  let q2 := q ++ [x]
  q2.drop (q2.length - maxlen)

/-- One history record `(time, event_type, path, size_delta)` as appended to
`self.recent_events`. -/
abbrev HistoryRecord := Nat × String × String × Int

/-- The mutable state of `DirectoryChangeTracker` (the `console` handle and
`start_time`, used only for presentation, are not part of the model). -/
structure Tracker where
  max_history : Nat
  exclude_patterns : List String
  dir_changes : List (String × Nat)
  dir_last_change : List (String × Nat)
  dir_sizes : List (String × Nat)
  dir_initial_sizes : List (String × Nat)
  dir_size_deltas : List (String × Int)
  file_sizes : List (String × Nat)
  recent_events : List HistoryRecord
  total_events : Nat
  event_counts : List (String × Nat)
  excluded_events : Nat
  deriving DecidableEq

namespace DirectoryChangeTracker

/-- The freshly constructed tracker state produced by `__init__` once the
`deque(maxlen=max_history)` allocation has succeeded. -/
def mk0 (max_history : Nat) (exclude_patterns : List String) : Tracker :=
  { max_history := max_history
    exclude_patterns := exclude_patterns
    dir_changes := []
    dir_last_change := []
    dir_sizes := []
    dir_initial_sizes := []
    dir_size_deltas := []
    file_sizes := []
    recent_events := []
    total_events := 0
    event_counts := []
    excluded_events := 0 }

/-- Embeds `__init__`: the only operation that can fail is
`deque(maxlen=max_history)`, which raises `ValueError` exactly when
`max_history` is negative. -/
def init (max_history : Int) (exclude_patterns : List String) :
    Except String Tracker :=
  if max_history < 0 then
    Except.error "maxlen must be non-negative"
  else
    Except.ok (mk0 max_history.toNat exclude_patterns)

/-- Embeds `_is_excluded`: case-insensitive glob match of the path against
every configured pattern. -/
def isExcluded (patterns : List String) (path : String) : Bool :=
  patterns.any (fun pattern => fnmatch (lowerStr path) (lowerStr pattern))

/-- Embeds `_record_change(event_type, path)` at time `now` against the
filesystem view `fs`.  The `try` around the size-delta block is modelled by
the `none` branches of `fs.getsize` (delta falls back to 0 and the ledger
write after the failing `getsize` does not happen); the `try` around
`get_dir_size` is dead in the source because `get_dir_size` swallows every
`OSError` itself. -/
def record (fs : FS) (now : Nat) (event_type : String) (path : String)
    (t : Tracker) : Tracker :=
  if isExcluded t.exclude_patterns path then
    { t with excluded_events := t.excluded_events + 1 }
  else
    let is_dir := fs.isDir path
    let directory := if is_dir then path else posixDirname path
    let file_path : Option String := if is_dir then none else some path
    let step :=
      match file_path with
      | none => ((0 : Int), t.file_sizes)
      | some fp =>
        if event_type = "created" then
          if fs.pathExists fp then
            match fs.getsize fp with
            | some new_size => ((new_size : Int), alistInsert t.file_sizes fp new_size)
            | none => (0, t.file_sizes)
          else (0, t.file_sizes)
        else if event_type = "modified" then
          if fs.pathExists fp then
            match fs.getsize fp with
            | some new_size =>
              let old_size := (alistLookup t.file_sizes fp).getD new_size
              ((new_size : Int) - (old_size : Int), alistInsert t.file_sizes fp new_size)
            | none => (0, t.file_sizes)
          else (0, t.file_sizes)
        else if event_type = "deleted" then
          let old_size := (alistLookup t.file_sizes fp).getD 0
          (-(old_size : Int), alistErase t.file_sizes fp)
        else if event_type = "moved" then
          let old_size := (alistLookup t.file_sizes fp).getD 0
          (-(old_size : Int), alistErase t.file_sizes fp)
        else if event_type = "moved_to" then
          if fs.pathExists fp then
            match fs.getsize fp with
            | some new_size => ((new_size : Int), alistInsert t.file_sizes fp new_size)
            | none => (0, t.file_sizes)
          else (0, t.file_sizes)
        else (0, t.file_sizes)
    let size_delta := step.1
    let file_sizes' := step.2
    let sizes :=
      if fs.isDir directory then
        let current_size := get_dir_size fs directory
        ( alistInsert t.dir_sizes directory current_size,
          if alistContains t.dir_initial_sizes directory then t.dir_initial_sizes
          else alistInsert t.dir_initial_sizes directory current_size )
      else (t.dir_sizes, t.dir_initial_sizes)
    { t with
      total_events := t.total_events + 1
      event_counts :=
        alistInsert t.event_counts event_type
          ((alistLookup t.event_counts event_type).getD 0 + 1)
      dir_changes :=
        alistInsert t.dir_changes directory
          ((alistLookup t.dir_changes directory).getD 0 + 1)
      dir_last_change := alistInsert t.dir_last_change directory now
      dir_size_deltas :=
        alistInsert t.dir_size_deltas directory
          ((alistLookup t.dir_size_deltas directory).getD 0 + size_delta)
      dir_sizes := sizes.1
      dir_initial_sizes := sizes.2
      file_sizes := file_sizes'
      recent_events :=
        dequeAppend t.max_history t.recent_events (now, event_type, path, size_delta) }

end DirectoryChangeTracker

/-- One row of the `get_changed_dirs` result: the tuple
`(directory, change count, last change time, current size, size delta)`. -/
structure DirRow where
  directory : String
  eventCount : Nat
  lastChangeAt : Nat
  currentSizeBytes : Nat
  cumulativeSizeDeltaBytes : Int
  deriving DecidableEq

/-- The sort key `abs(x[4])` used by `get_changed_dirs`. -/
def absDelta (r : DirRow) : Nat := r.cumulativeSizeDeltaBytes.natAbs

/-- Stable descending insertion by `absDelta`. -/
def insertByAbsDelta (x : DirRow) : List DirRow → List DirRow
  | [] => [x]
  | y :: ys =>
    if absDelta y ≤ absDelta x then x :: y :: ys else y :: insertByAbsDelta x ys

/-- Embeds `items.sort(key=lambda x: abs(x[4]), reverse=True)`.  Python's
sort is stable, and the output of a stable sort is uniquely determined by
the comparator, so this stable insertion sort produces the same list as
CPython's Timsort. -/
def sortByAbsDelta : List DirRow → List DirRow
  | [] => []
  | x :: xs => insertByAbsDelta x (sortByAbsDelta xs)

/-- Embeds `get_dir_changes`' per-directory tuple construction: every key of
`dir_changes` also sits in `dir_last_change` (both are written together by
`_record_change`), so the `.getD 0` default on `dir_last_change` is never
exercised; `dir_sizes`/`dir_size_deltas` use Python's explicit
`.get(d, 0)`. -/
def rowOf (t : Tracker) (dc : String × Nat) : DirRow :=
  { directory := dc.1
    eventCount := dc.2
    lastChangeAt := (alistLookup t.dir_last_change dc.1).getD 0
    currentSizeBytes := (alistLookup t.dir_sizes dc.1).getD 0
    cumulativeSizeDeltaBytes := (alistLookup t.dir_size_deltas dc.1).getD 0 }

/-- Embeds `get_changed_dirs(since_minutes)` evaluated at time `now`:
optionally filter directories whose last change is older than
`now - since_minutes*60` seconds, then sort by descending `abs` delta. -/
def DirectoryChangeTracker.get_changed_dirs (t : Tracker) (now : Nat)
    (since_minutes : Option Nat) : List DirRow :=
  match since_minutes with
  | none => sortByAbsDelta (t.dir_changes.map (rowOf t))
  | some m =>
    let cutoff := now - m * 60
    sortByAbsDelta
      ((t.dir_changes.filter
        (fun dc => cutoff ≤ (alistLookup t.dir_last_change dc.1).getD 0)).map
        (rowOf t))

/-- Embeds `get_recent_events(count)`, i.e. `list(self.recent_events)[-count:]`
for a non-negative `count`: for `count = 0` the slice `[-0:]` is `[0:]` and
returns the whole buffer; otherwise it is the last `count` elements. -/
def DirectoryChangeTracker.get_recent_events (t : Tracker) (count : Nat) :
    List HistoryRecord :=
  if count = 0 then t.recent_events
  else t.recent_events.drop (t.recent_events.length - count)

/-- Folds a list of `(fs, now, event_type, path)` events through
`_record_change`, left to right, embedding a whole recording session. -/
def runEvents (t : Tracker) : List (FS × Nat × String × String) → Tracker
  | [] => t
  | e :: es => runEvents (DirectoryChangeTracker.record e.1 e.2.1 e.2.2.1 e.2.2.2 t) es

/-- Concrete filesystem view on which every call fails or answers `false`. -/
def fsEmpty : FS :=
  { isDir := fun _ => false
    pathExists := fun _ => false
    getsize := fun _ => none
    listdir := fun _ => none }

/-- Concrete filesystem view: the file `/d/f` exists with size `s`, its
directory `/d` does not answer `isdir` (so no probe runs). -/
def fsFile (s : Nat) : FS :=
  { isDir := fun _ => false
    pathExists := fun p => p = "/d/f"
    getsize := fun p => if p = "/d/f" then some s else none
    listdir := fun _ => none }

/-- Concrete filesystem view: the directory `/d` exists but `os.scandir` on
it raises (permission denied); the file `/d/f` is absent. -/
def fsDirDenied : FS :=
  { isDir := fun p => p = "/d"
    pathExists := fun _ => false
    getsize := fun _ => none
    listdir := fun _ => none }

/-- Concrete listing of `/x`: a 3-byte regular file, a subdirectory, a file
whose `stat` raises, and an entry whose `is_file` raises. -/
def fsListing : FS :=
  { isDir := fun p => p = "/x"
    pathExists := fun _ => false
    getsize := fun _ => none
    listdir := fun p =>
      if p = "/x" then
        some [⟨some true, some 3⟩, ⟨some false, some 99⟩,
              ⟨some true, none⟩, ⟨none, some 7⟩]
      else none }

/-- Concrete tracker: `/d` has a recorded current size of 5 bytes and a
recorded initial size of 5 bytes; the ledger holds a stale 42-byte entry
for `/d/f`. -/
def tStale : Tracker :=
  { DirectoryChangeTracker.mk0 10 [] with
    dir_sizes := [("/d", 5)]
    dir_initial_sizes := [("/d", 5)]
    file_sizes := [("/d/f", 42)] }

/-- Concrete tracker whose history holds exactly one record. -/
def tOne : Tracker :=
  { DirectoryChangeTracker.mk0 10 [] with
    recent_events := [(1, "created", "/d/f", 100)] }

/-- Concrete tracker configured to exclude `*.tmp` paths. -/
def tExcl : Tracker := DirectoryChangeTracker.mk0 10 ["*.tmp"]

open DirectoryChangeTracker

theorem alistLookup_alistInsert_self {α : Type} (l : List (String × α))
    (k : String) (v : α) : alistLookup (alistInsert l k v) k = some v := by
  induction l with
  | nil => simp [alistInsert, alistLookup]
  | cons h t ih =>
    by_cases hk : h.1 = k
    · simp [alistInsert, alistLookup, hk]
    · simp [alistInsert, alistLookup, hk, ih]

theorem alistLookup_alistInsert_ne {α : Type} (l : List (String × α))
    (k k2 : String) (v : α) (h : k2 ≠ k) :
    alistLookup (alistInsert l k v) k2 = alistLookup l k2 := by
  have hne : ¬ (k = k2) := fun hh => h hh.symm
  induction l with
  | nil => simp [alistInsert, alistLookup, hne]
  | cons hd t ih =>
    by_cases hk : hd.1 = k
    · simp [alistInsert, alistLookup, hk, hne]
    · simp [alistInsert, alistLookup, hk, ih]

/-- C2: an event on an excluded path only increments `excluded_events`;
`total_events`, the per-kind counters, every per-directory map, the file
ledger and the history buffer are exactly as before the call. -/
theorem record_excluded_only_counts (fs : FS) (now : Nat)
    (event_type path : String) (t : Tracker)
    (h : isExcluded t.exclude_patterns path = true) :
    record fs now event_type path t
      = { t with excluded_events := t.excluded_events + 1 } := by
  simp [record, h]

/-- Witness for C2 at a concrete excluded path. -/
theorem record_excluded_only_counts_witness :
    isExcluded tExcl.exclude_patterns "/a/Note.TMP" = true ∧
    record fsEmpty 5 "created" "/a/Note.TMP" tExcl
      = { tExcl with excluded_events := tExcl.excluded_events + 1 } :=
  ⟨by decide, record_excluded_only_counts fsEmpty 5 "created" "/a/Note.TMP" tExcl (by decide)⟩

/-- C5 counterexample: the claim says every non-positive history capacity is
rejected at construction, but capacity 0 is accepted — `deque(maxlen=0)`
is legal in CPython, so `__init__` succeeds and yields a tracker whose
history stays empty forever. -/
theorem init_zero_capacity_succeeds :
    init 0 [] = Except.ok (mk0 0 []) := rfl

/-- C5 amended: construction fails fast exactly for a negative history
capacity (the `ValueError` from `deque(maxlen=...)`); every capacity ≥ 0,
including 0, is accepted. -/
theorem init_ok_iff_nonneg (c : Int) (pats : List String) :
    (init c pats).isOk ↔ 0 ≤ c := by
  by_cases h : c < 0
  · simp only [init, h, if_true, Except.isOk, Except.toBool]
    simp
    omega
  · simp only [init, h, if_false, Except.isOk, Except.toBool]
    simp
    omega

/-- C6 counterexample: the claim says `get_recent_events(n)` never returns
more than `n` records, but for `n = 0` the Python slice `[-0:]` is `[0:]`
and the whole buffer comes back — here one record instead of none. -/
theorem get_recent_events_zero_returns_all :
    get_recent_events tOne 0 = [(1, "created", "/d/f", 100)] ∧
    tOne.recent_events.length = 1 := by
  constructor <;> rfl

/-- C6 amended: for every `n ≥ 1`, `get_recent_events(n)` returns the last
`min n size` buffered records in arrival order (the suffix of the buffer);
for `n = 0` it returns the entire buffer instead. -/
theorem get_recent_events_suffix (t : Tracker) (n : Nat) (h : 1 ≤ n) :
    get_recent_events t n = t.recent_events.drop (t.recent_events.length - n) ∧
    (get_recent_events t n).length = min n t.recent_events.length := by
  have hn : ¬ n = 0 := by omega
  refine ⟨by simp [get_recent_events, hn], ?_⟩
  simp [get_recent_events, hn, List.length_drop]
  omega

/-- Witness for C6 at `n = 2` on a one-record buffer. -/
theorem get_recent_events_suffix_witness :
    get_recent_events tOne 2 = tOne.recent_events.drop (tOne.recent_events.length - 2) ∧
    (get_recent_events tOne 2).length = min 2 tOne.recent_events.length :=
  get_recent_events_suffix tOne 2 (by decide)

/-- C8: `get_dir_size` is total — if the directory cannot be opened it
returns 0; otherwise it returns the sum of the sizes of exactly those
immediate entries that are regular files (symlinks not followed) whose
`stat` succeeded, each failing entry being skipped individually; in
particular a directory holding only subdirectories yields 0. -/
theorem get_dir_size_characterisation (fs : FS) (p : String) :
    (fs.listdir p = none → get_dir_size fs p = 0) ∧
    (∀ es, fs.listdir p = some es →
      get_dir_size fs p =
        (es.filterMap
          (fun e => if e.isFileRes = some true then e.statRes else none)).sum) ∧
    (∀ es, fs.listdir p = some es → (∀ e ∈ es, e.isFileRes = some false) →
      get_dir_size fs p = 0) := by
  have key : ∀ (es : List DirEntry) (a : Nat),
      es.foldl
        (fun total e =>
          match e.isFileRes with
          | none => total
          | some false => total
          | some true =>
            match e.statRes with
            | none => total
            | some n => total + n)
        a
        = a + (es.filterMap
            (fun e => if e.isFileRes = some true then e.statRes else none)).sum := by
    intro es
    induction es with
    | nil => intro a; simp
    | cons e t ih =>
      intro a
      match he : e.isFileRes with
      | none => simp [ih, he]
      | some false => simp [ih, he]
      | some true =>
        match hs : e.statRes with
        | none => simp [ih, he, hs]
        | some n => simp [ih, he, hs]; omega
  refine ⟨fun h => by simp [get_dir_size, h], fun es h => ?_, fun es h hall => ?_⟩
  · simp [get_dir_size, h, key]
  · simp [get_dir_size, h, key]
    have : ∀ e ∈ es,
        (if e.isFileRes = some true then e.statRes else none) = none := by
      intro e he
      simp [hall e he]
    rw [List.filterMap_eq_nil_iff.mpr this]
    rfl

/-- Witness for C8 on the concrete listing of `/x` (one 3-byte file, one
subdirectory, one entry with failing `stat`, one with failing `is_file`). -/
theorem get_dir_size_characterisation_witness :
    fsListing.listdir "/x" = some [⟨some true, some 3⟩, ⟨some false, some 99⟩,
        ⟨some true, none⟩, ⟨none, some 7⟩] ∧
    get_dir_size fsListing "/x"
      = ([(⟨some true, some 3⟩ : DirEntry), ⟨some false, some 99⟩,
          ⟨some true, none⟩, ⟨none, some 7⟩].filterMap
          (fun e => if e.isFileRes = some true then e.statRes else none)).sum ∧
    get_dir_size fsListing "/x" = 3 :=
  ⟨rfl, (get_dir_size_characterisation fsListing "/x").2.1 _ rfl, rfl⟩

/-- C4 counterexample: when the event's directory still exists but the probe
fails (here: `os.scandir` on `/d` raises `PermissionError`), `get_dir_size`
swallows the error and returns 0, and `_record_change` overwrites the
directory's recorded current size with that 0 — the previously recorded
5 bytes are not left unchanged as the claim states. -/
theorem record_probe_denied_overwrites :
    fsDirDenied.isDir "/d" = true ∧
    fsDirDenied.listdir "/d" = none ∧
    alistLookup tStale.dir_sizes "/d" = some 5 ∧
    alistLookup (record fsDirDenied 7 "created" "/d/f" tStale).dir_sizes "/d"
      = some 0 := by
  refine ⟨rfl, rfl, rfl, ?_⟩
  rfl

/-- C4 amended: if the event's directory does not pass `os.path.isdir` at
record time (directory vanished), `dir_sizes` and `dir_initial_sizes` are
left exactly as they were; but if the directory passes `isdir` and the
probe's `os.scandir` fails (permission denied), the probe degrades to 0 and
the directory's current size is overwritten with 0. -/
theorem record_probe_directory_missing (fs : FS) (now : Nat)
    (event_type path : String) (t : Tracker)
    (hex : isExcluded t.exclude_patterns path = false)
    (hfile : fs.isDir path = false) :
    (fs.isDir (posixDirname path) = false →
      (record fs now event_type path t).dir_sizes = t.dir_sizes ∧
      (record fs now event_type path t).dir_initial_sizes = t.dir_initial_sizes) ∧
    (fs.isDir (posixDirname path) = true → fs.listdir (posixDirname path) = none →
      alistLookup (record fs now event_type path t).dir_sizes (posixDirname path)
        = some 0) := by
  constructor
  · intro hdir
    constructor <;> simp [record, hex, hfile, hdir]
  · intro hdir hscan
    simp [record, hex, hfile, hdir, get_dir_size, hscan, alistLookup_alistInsert_self]

/-- Witness for C4 amended: a vanished directory leaves both size maps
untouched. -/
theorem record_probe_directory_missing_witness :
    (record fsEmpty 1 "created" "/d/f" tStale).dir_sizes = tStale.dir_sizes ∧
    (record fsEmpty 1 "created" "/d/f" tStale).dir_initial_sizes
      = tStale.dir_initial_sizes :=
  (record_probe_directory_missing fsEmpty 1 "created" "/d/f" tStale rfl rfl).1 rfl

/-- C10: a non-excluded `modified` event on a path that no longer exists
computes `size_delta = 0` and leaves the ledger untouched (a stale entry is
retained, not removed), while `total_events`, the `modified` counter, the
directory's change count and last-change time are still updated and a
history record with delta 0 is appended. -/
theorem record_modified_missing (fs : FS) (now : Nat) (path : String)
    (t : Tracker)
    (hex : isExcluded t.exclude_patterns path = false)
    (hdir : fs.isDir path = false)
    (hexists : fs.pathExists path = false) :
    (record fs now "modified" path t).file_sizes = t.file_sizes ∧
    (record fs now "modified" path t).total_events = t.total_events + 1 ∧
    (record fs now "modified" path t).event_counts
      = alistInsert t.event_counts "modified"
          ((alistLookup t.event_counts "modified").getD 0 + 1) ∧
    alistLookup (record fs now "modified" path t).dir_changes (posixDirname path)
      = some ((alistLookup t.dir_changes (posixDirname path)).getD 0 + 1) ∧
    alistLookup (record fs now "modified" path t).dir_last_change (posixDirname path)
      = some now ∧
    alistLookup (record fs now "modified" path t).dir_size_deltas (posixDirname path)
      = some ((alistLookup t.dir_size_deltas (posixDirname path)).getD 0) ∧
    (record fs now "modified" path t).recent_events
      = dequeAppend t.max_history t.recent_events (now, "modified", path, 0) := by
  refine ⟨?_, ?_, ?_, ?_, ?_, ?_, ?_⟩ <;>
    simp [record, hex, hdir, hexists, alistLookup_alistInsert_self]

/-- Witness for C10: stale 42-byte ledger entry for `/d/f` survives a
`modified` event on the vanished file, and the directory delta is
unchanged. -/
theorem record_modified_missing_witness :
    (record fsEmpty 9 "modified" "/d/f" tStale).file_sizes = tStale.file_sizes ∧
    alistLookup (record fsEmpty 9 "modified" "/d/f" tStale).dir_size_deltas
        (posixDirname "/d/f")
      = some ((alistLookup tStale.dir_size_deltas (posixDirname "/d/f")).getD 0) :=
  ⟨(record_modified_missing fsEmpty 9 "/d/f" tStale rfl rfl rfl).1,
   (record_modified_missing fsEmpty 9 "/d/f" tStale rfl rfl rfl).2.2.2.2.2.1⟩

/-- C1: recording `created` (observed size `s1`), then `modified` (observed
size `s2`), then `deleted` on the same non-excluded file path, each stat
succeeding at record time, nets the directory's cumulative size delta to 0:
the contributions are `+s1`, `s2 − s1` and `−s2`. -/
theorem created_modified_deleted_net_zero (t : Tracker) (fs1 fs2 fs3 : FS)
    (n1 n2 n3 : Nat) (p : String) (s1 s2 : Nat)
    (hex : isExcluded t.exclude_patterns p = false)
    (h1d : fs1.isDir p = false) (h1e : fs1.pathExists p = true)
    (h1s : fs1.getsize p = some s1)
    (h2d : fs2.isDir p = false) (h2e : fs2.pathExists p = true)
    (h2s : fs2.getsize p = some s2)
    (h3d : fs3.isDir p = false)
    (h0 : (alistLookup t.dir_size_deltas (posixDirname p)).getD 0 = 0) :
    (alistLookup
        (record fs3 n3 "deleted" p
          (record fs2 n2 "modified" p
            (record fs1 n1 "created" p t))).dir_size_deltas
        (posixDirname p)).getD 0 = 0 := by
  simp [record, hex, h1d, h1e, h1s, h2d, h2e, h2s, h3d,
        alistLookup_alistInsert_self, h0]

/-- Witness for C1: a 100-byte create, a 250-byte modify and a delete on
`/d/f` leave `/d`'s cumulative delta at 0. -/
theorem created_modified_deleted_net_zero_witness :
    (alistLookup
        (record fsEmpty 3 "deleted" "/d/f"
          (record (fsFile 250) 2 "modified" "/d/f"
            (record (fsFile 100) 1 "created" "/d/f"
              (mk0 1000 [])))).dir_size_deltas
        (posixDirname "/d/f")).getD 0 = 0 :=
  created_modified_deleted_net_zero (mk0 1000 []) (fsFile 100) (fsFile 250) fsEmpty
    1 2 3 "/d/f" 100 250 rfl rfl rfl rfl rfl rfl rfl rfl rfl

theorem dequeAppend_length {α : Type} (c : Nat) (q : List α) (x : α) :
    (dequeAppend c q x).length = min (q.length + 1) c := by
  simp [dequeAppend]
  omega

theorem foldl_dequeAppend_drop {α : Type} (c : Nat) (hc : 1 ≤ c) :
    ∀ (xs q : List α), q.length ≤ c →
      List.foldl (dequeAppend c) q xs = (q ++ xs).drop (q.length + xs.length - c) := by
  intro xs
  induction xs with
  | nil =>
    intro q hq
    have h0 : q.length - c = 0 := by omega
    simp [h0]
  | cons x xs ih =>
    intro q hq
    have hlen : (dequeAppend c q x).length ≤ c := by
      rw [dequeAppend_length]
      omega
    have step : List.foldl (dequeAppend c) q (x :: xs)
        = List.foldl (dequeAppend c) (dequeAppend c q x) xs := rfl
    rw [step, ih _ hlen, dequeAppend_length]
    have e1 : dequeAppend c q x = (q ++ [x]).drop (q.length + 1 - c) := by
      simp [dequeAppend]
    rw [e1]
    have hle : q.length + 1 - c ≤ (q ++ [x]).length := by
      simp
    rw [← List.drop_append_of_le_length hle, List.drop_drop]
    have harith : q.length + 1 - c + (min (q.length + 1) c + xs.length - c)
        = q.length + (x :: xs).length - c := by
      simp
      omega
    rw [harith, List.append_assoc]
    rfl

/-- C3: with capacity `c ≥ 1`, the history buffer never holds more than `c`
records at any prefix of the append sequence, and after `c + k` appends it
holds exactly the last `c` appended records in arrival order (strict FIFO
eviction of the oldest, as performed by `deque(maxlen=c)`). -/
theorem history_capacity_fifo (c k : Nat) (hc : 1 ≤ c)
    (xs : List HistoryRecord) (hlen : xs.length = c + k) :
    (∀ i : Nat,
      (List.foldl (dequeAppend c) ([] : List HistoryRecord) (xs.take i)).length
        ≤ c) ∧
    List.foldl (dequeAppend c) ([] : List HistoryRecord) xs = xs.drop k := by
  constructor
  · intro i
    rw [foldl_dequeAppend_drop c hc _ [] (by simp)]
    simp
    omega
  · rw [foldl_dequeAppend_drop c hc _ [] (by simp)]
    simp
    rw [show xs.length - c = k from by omega]

/-- Witness for C3: capacity 2, three appended records, the last two
survive in order. -/
theorem history_capacity_fifo_witness :
    List.foldl (dequeAppend 2) ([] : List HistoryRecord)
        [(1, "created", "/a", 5), (2, "created", "/b", 6), (3, "created", "/c", 7)]
      = [(2, "created", "/b", 6), (3, "created", "/c", 7)] := by
  have h := (history_capacity_fifo 2 1 (by decide)
    [(1, "created", "/a", 5), (2, "created", "/b", 6), (3, "created", "/c", 7)]
    rfl).2
  simpa using h

theorem mem_insertByAbsDelta (x y : DirRow) (l : List DirRow) :
    y ∈ insertByAbsDelta x l ↔ y = x ∨ y ∈ l := by
  induction l with
  | nil => simp [insertByAbsDelta]
  | cons z zs ih =>
    by_cases hz : absDelta z ≤ absDelta x
    · simp [insertByAbsDelta, hz]
    · simp [insertByAbsDelta, hz, ih]
      tauto

theorem pairwise_insertByAbsDelta (x : DirRow) (l : List DirRow)
    (h : l.Pairwise (fun a b => absDelta b ≤ absDelta a)) :
    (insertByAbsDelta x l).Pairwise (fun a b => absDelta b ≤ absDelta a) := by
  induction l with
  | nil => simp [insertByAbsDelta]
  | cons z zs ih =>
    rcases List.pairwise_cons.mp h with ⟨hz, hzs⟩
    by_cases hle : absDelta z ≤ absDelta x
    · rw [show insertByAbsDelta x (z :: zs)
          = if absDelta z ≤ absDelta x then x :: z :: zs
            else z :: insertByAbsDelta x zs from rfl, if_pos hle]
      refine List.pairwise_cons.mpr ⟨?_, h⟩
      intro a ha
      rcases List.mem_cons.mp ha with rfl | hmem
      · exact hle
      · exact le_trans (hz a hmem) hle
    · rw [show insertByAbsDelta x (z :: zs)
          = if absDelta z ≤ absDelta x then x :: z :: zs
            else z :: insertByAbsDelta x zs from rfl, if_neg hle]
      refine List.pairwise_cons.mpr ⟨?_, ih hzs⟩
      intro a ha
      rcases (mem_insertByAbsDelta x a zs).mp ha with rfl | hmem
      · omega
      · exact hz a hmem

theorem pairwise_sortByAbsDelta (l : List DirRow) :
    (sortByAbsDelta l).Pairwise (fun a b => absDelta b ≤ absDelta a) := by
  induction l with
  | nil => simp [sortByAbsDelta]
  | cons x xs ih => exact pairwise_insertByAbsDelta x _ ih

/-- C7: for every engine state and every (or no) time window, the rows
returned by `get_changed_dirs` are sorted by non-increasing absolute
cumulative size delta: each row's `|delta|` is at least the next row's. -/
theorem get_changed_dirs_sorted (t : Tracker) (now : Nat) (w : Option Nat) :
    (get_changed_dirs t now w).Pairwise (fun a b => absDelta b ≤ absDelta a) := by
  cases w <;> exact pairwise_sortByAbsDelta _

theorem sum_snd_alistInsert_bump (l : List (String × Nat)) (k : String) :
    ((alistInsert l k ((alistLookup l k).getD 0 + 1)).map Prod.snd).sum
      = (l.map Prod.snd).sum + 1 := by
  induction l with
  | nil => simp [alistInsert, alistLookup]
  | cons hd tl ih =>
    by_cases hk : hd.1 = k
    · simp [alistInsert, alistLookup, hk]
      omega
    · simp [alistInsert, alistLookup, hk] at ih ⊢
      omega

theorem record_exclude_patterns (fs : FS) (now : Nat) (ty p : String)
    (t : Tracker) :
    (record fs now ty p t).exclude_patterns = t.exclude_patterns := by
  cases h : isExcluded t.exclude_patterns p <;> simp [record, h]

theorem record_total_events (fs : FS) (now : Nat) (ty p : String) (t : Tracker) :
    (record fs now ty p t).total_events
      = if isExcluded t.exclude_patterns p then t.total_events
        else t.total_events + 1 := by
  cases h : isExcluded t.exclude_patterns p <;> simp [record, h]

theorem record_counts_sum (fs : FS) (now : Nat) (ty p : String) (t : Tracker) :
    (((record fs now ty p t).event_counts).map Prod.snd).sum
      = if isExcluded t.exclude_patterns p
        then ((t.event_counts).map Prod.snd).sum
        else ((t.event_counts).map Prod.snd).sum + 1 := by
  cases h : isExcluded t.exclude_patterns p <;>
    simp [record, h, sum_snd_alistInsert_bump]

theorem runEvents_total_sum (events : List (FS × Nat × String × String)) :
    ∀ t : Tracker,
      t.total_events = ((t.event_counts).map Prod.snd).sum →
      (runEvents t events).total_events
        = (((runEvents t events).event_counts).map Prod.snd).sum := by
  induction events with
  | nil =>
    intro t h
    simpa [runEvents] using h
  | cons e es ih =>
    intro t h
    have h' : (record e.1 e.2.1 e.2.2.1 e.2.2.2 t).total_events
        = (((record e.1 e.2.1 e.2.2.1 e.2.2.2 t).event_counts).map Prod.snd).sum := by
      rw [record_total_events, record_counts_sum]
      cases hE : isExcluded t.exclude_patterns e.2.2.2 <;> simp [hE, h]
    simpa [runEvents] using ih _ h'

theorem runEvents_total_filter (events : List (FS × Nat × String × String)) :
    ∀ t : Tracker,
      (runEvents t events).total_events
        = t.total_events
          + (events.filter
              (fun e => !(isExcluded t.exclude_patterns e.2.2.2))).length := by
  induction events with
  | nil =>
    intro t
    simp [runEvents]
  | cons e es ih =>
    intro t
    rw [show runEvents t (e :: es)
        = runEvents (record e.1 e.2.1 e.2.2.1 e.2.2.2 t) es from rfl]
    rw [ih, record_total_events, record_exclude_patterns]
    cases hE : isExcluded t.exclude_patterns e.2.2.2 <;>
      simp [hE, List.filter_cons] <;> omega

/-- C9: after any sequence of recorded events, `total_events` equals the
sum over kinds of `event_counts`, and also equals the number of
non-excluded events processed — which is exactly the number of records ever
appended to the history buffer, one per non-excluded event; excluded
events contribute to neither. -/
theorem totals_consistency (c : Nat) (pats : List String)
    (events : List (FS × Nat × String × String)) :
    (runEvents (mk0 c pats) events).total_events
      = (((runEvents (mk0 c pats) events).event_counts).map Prod.snd).sum ∧
    (runEvents (mk0 c pats) events).total_events
      = (events.filter (fun e => !(isExcluded pats e.2.2.2))).length := by
  constructor
  · exact runEvents_total_sum events (mk0 c pats) rfl
  · simpa [mk0] using runEvents_total_filter events (mk0 c pats)

end DeltaWatch
